import Mathlib

/-!
Verification of the recipe-creation page component (src/src/app/page.tsx).

The component holds four pieces of React state: the ingredient rows, the chat
transcript, the in-flight flag and the pending input text.  We embed that
state as a plain structure and each event handler of the component as a state
transformer.  The outcome of the single awaited HTTP call inside
`generateRecipe` / `sendMessage` is passed in as an oracle value
(`NetResult`): `netError` models a rejected promise (connection failure or
non-2xx status), `ok d` models a fulfilled promise whose parsed JSON body is
`d`.  Fields that the code reads without any runtime check (`candidates`,
`content`, `parts`) are embedded as `Option`s: an absent field makes the
JavaScript property access throw a `TypeError`, which the surrounding
`try`/`catch` turns into the same failure branch as a network error, so the
extraction of the reply text is an `Option`-returning function.
-/

namespace RecipeCreate

/-- One ingredient row (interface `Ingredient`, page.tsx lines 7-11). -/
structure Ingredient where
  id : String
  name : String
  amount : String
deriving DecidableEq, Repr

/-- Message role (`"user" | "assistant"`, page.tsx line 14). -/
inductive Role where
  | user
  | assistant
deriving DecidableEq, Repr

/-- One transcript entry (interface `ChatMessage`, page.tsx lines 13-17).
The source marks `isIngredientList` optional; the code only ever tests its
truthiness (`msg.isIngredientList ?`), and an absent field is falsy, so we
embed it as a `Bool` with `false` standing for absent. -/
structure ChatMessage where
  role : Role
  text : String
  isIngredientList : Bool
deriving DecidableEq, Repr

/-- One text segment of a model reply (`parts: [{ text: ... }]`). -/
structure Part where
  text : String
deriving DecidableEq, Repr

/-- `candidates[0].content`; its `parts` field is unchecked JSON, hence
optional. -/
structure Content where
  parts : Option (List Part)
deriving DecidableEq, Repr

/-- One entry of `candidates`; its `content` field is unchecked JSON, hence
optional. -/
structure Candidate where
  content : Option Content
deriving DecidableEq, Repr

/-- The parsed JSON response body (`response.data`); the `candidates` field
is unchecked JSON, hence optional. -/
structure ResponseData where
  candidates : Option (List Candidate)
deriving DecidableEq, Repr

/-- Outcome of the awaited `axios.post` call: a rejected promise
(connection failure / non-2xx), or a fulfilled one carrying the parsed
body. -/
inductive NetResult where
  | netError
  | ok (d : ResponseData)
deriving DecidableEq, Repr

/-- The component's React state: `ingredients`, `chatHistory`, `isLoading`,
`inputText` (page.tsx lines 35-38). -/
structure ComponentState where
  ingredients : List Ingredient
  chatHistory : List ChatMessage
  isLoading : Bool
  inputText : String
deriving DecidableEq, Repr

/-- The three blank rows the component starts with (page.tsx lines 29-33). -/
def initialIngredients : List Ingredient :=
  [⟨"1", "", ""⟩, ⟨"2", "", ""⟩, ⟨"3", "", ""⟩]

/-- The initial component state: three blank rows, empty transcript, not
loading, empty input. -/
def initialComponentState : ComponentState :=
  ⟨initialIngredients, [], false, ""⟩

/-- JavaScript's `String.prototype.trim()`: strip leading and trailing
whitespace.  Embedded directly over the character list so that the kernel
can evaluate it on concrete inputs (Lean's own `String.trim` does not
reduce). -/
def jsTrim (s : String) : String :=
  ⟨((s.data.dropWhile Char.isWhitespace).reverse.dropWhile
      Char.isWhitespace).reverse⟩

/-- Which field `updateIngredient` writes (`field: 'name' | 'amount'`). -/
inductive IngField where
  | name
  | amount
deriving DecidableEq, Repr

/-- `addIngredient` (page.tsx lines 40-43): appends one blank row whose id is
`Date.now().toString()`; the clock reading is passed in as `newId`. -/
def addIngredient (l : List Ingredient) (newId : String) : List Ingredient :=
  l ++ [⟨newId, "", ""⟩]

/-- `removeIngredient` (page.tsx lines 45-47): keeps every row whose id
differs from the argument. -/
def removeIngredient (l : List Ingredient) (id : String) : List Ingredient :=
  l.filter (fun ing => ing.id != id)

/-- `updateIngredient` (page.tsx lines 49-53): rewrites the requested field
on the row with the given id, leaving every other row untouched. -/
def updateIngredient (l : List Ingredient) (id : String) (f : IngField)
    (v : String) : List Ingredient :=
  l.map (fun ing =>
    if ing.id == id then
      match f with
      | .name => { ing with name := v }
      | .amount => { ing with amount := v }
    else ing)

/-- `resetChat` (page.tsx lines 55-59): clears the transcript and the input,
drops the in-flight flag; the ingredient rows are not touched. -/
def resetChat (s : ComponentState) : ComponentState :=
  { s with chatHistory := [], inputText := "", isLoading := false }

/-- The composed ingredient line of `generateRecipe` (page.tsx lines 64-67):
drop rows whose trimmed name is empty, render each survivor as
`name ++ " " ++ amount ++ "g"`, join with the full-width comma. -/
def buildPromptIngredientsList (l : List Ingredient) : String :=
  String.intercalate "、"
    ((l.filter (fun ing => jsTrim ing.name != "")).map
      (fun ing => ing.name ++ " " ++ ing.amount ++ "g"))

/-- Reading the reply text out of a response body
(`response.data.candidates[0].content.parts.map(part => part.text).join("\n")`,
page.tsx lines 100-101 and 139-140).  `candidates` absent, `candidates`
empty (`[0]` is `undefined`), `content` absent, or `parts` absent all make
the chained property access throw, i.e. return `none` here; otherwise the
part texts are joined with a newline. -/
def extractReplyText (d : ResponseData) : Option String :=
  match d.candidates with
  | none => none
  | some [] => none
  | some (c :: _) =>
    match c.content with
    | none => none
    | some content =>
      match content.parts with
      | none => none
      | some parts => some (String.intercalate "\n" (parts.map Part.text))

/-- `generateRecipe` (page.tsx lines 61-112) run to completion: early return
on an empty row list; otherwise the request is issued and, on a fulfilled
response with a well-shaped body, the whole transcript is REPLACED by the
synthetic ingredient-list user message and one assistant message; any
failure is caught and changes nothing; the `finally` step always ends with
`isLoading := false`. -/
def generateRecipe (s : ComponentState) (net : NetResult) : ComponentState :=
  if s.ingredients.length == 0 then s
  else
    match net with
    | .netError => { s with isLoading := false }
    | .ok d =>
      match extractReplyText d with
      | none => { s with isLoading := false }
      | some recipe =>
        { s with
          chatHistory :=
            [⟨.user, "食材：" ++ buildPromptIngredientsList s.ingredients, true⟩,
             ⟨.assistant, recipe, false⟩],
          isLoading := false }

/-- `sendMessage` (page.tsx lines 114-149) run to completion: early return on
a blank (post-trim) input; otherwise `newHistory` (the current transcript
plus the literal input as a user message) exists only as a local value used
for the request body; on success the transcript becomes `newHistory` plus
one assistant message and the input is cleared; on failure NOTHING but the
in-flight flag changes — in particular `setChatHistory` is never called, so
the user message is not committed to the transcript. -/
def sendMessage (s : ComponentState) (net : NetResult) : ComponentState :=
  if jsTrim s.inputText == "" then s
  else
    match net with
    | .netError => { s with isLoading := false }
    | .ok d =>
      match extractReplyText d with
      | none => { s with isLoading := false }
      | some responseParts =>
        { s with
          chatHistory :=
            (s.chatHistory ++ [⟨.user, s.inputText, false⟩]) ++
              [⟨.assistant, responseParts, false⟩],
          inputText := "",
          isLoading := false }

/-- The `disabled` condition of the generate button (page.tsx line 206):
`isLoading || ingredients.filter(named).length === 0`. -/
def submitDisabled (s : ComponentState) : Bool :=
  s.isLoading ||
    (s.ingredients.filter (fun ing => jsTrim ing.name != "")).length == 0

/-- The user-level `submitIngredients` operation: clicking the generate
button, which fires `generateRecipe` only while not disabled (page.tsx
lines 204-210).  The button is the sole way `generateRecipe` is ever
invoked. -/
def submitIngredients (s : ComponentState) (net : NetResult) :
    ComponentState :=
  if submitDisabled s then s else generateRecipe s net

/-! ### Ingredient-editor operation sequences (for the editor invariants)

The three editor handlers are pure functions of the row list alone, so
sequences of them are modelled as a list of operations folded over a row
list. -/

/-- One editor operation; `add` carries the `Date.now().toString()` reading
used as the fresh id. -/
inductive IngOp where
  | add (newId : String)
  | remove (id : String)
  | update (id : String) (f : IngField) (v : String)
deriving DecidableEq, Repr

/-- Apply one editor operation. -/
def applyIngOp (l : List Ingredient) : IngOp → List Ingredient
  | .add newId => addIngredient l newId
  | .remove id => removeIngredient l id
  | .update id f v => updateIngredient l id f v

/-- Apply a sequence of editor operations, left to right. -/
def applyIngOps : List Ingredient → List IngOp → List Ingredient
  | l, [] => l
  | l, op :: ops => applyIngOps (applyIngOp l op) ops

/-- `Date.now()` strictly increases between clicks, so each generated id is
absent from the list it is added to; this predicate states exactly that
side condition along a sequence. -/
def freshAdds : List Ingredient → List IngOp → Bool
  | _, [] => true
  | l, .add newId :: ops =>
    !((l.map Ingredient.id).contains newId) &&
      freshAdds (applyIngOp l (.add newId)) ops
  | l, .remove id :: ops => freshAdds (applyIngOp l (.remove id)) ops
  | l, .update id f v :: ops => freshAdds (applyIngOp l (.update id f v)) ops

/-- The ids introduced by the `add` operations of a sequence, in order. -/
def addedIds : List IngOp → List String
  | [] => []
  | .add newId :: ops => newId :: addedIds ops
  | .remove _ :: ops => addedIds ops
  | .update _ _ _ :: ops => addedIds ops

/-! ### Conversation-session operation sequences

The claims about the transcript quantify over sequences of the user-level
operations `submitIngredients`, `sendFollowUp`, `reset`, each run to
completion.  `sendFollowUp text` is typing `text` into the follow-up input
(its `onChange` stores the literal string) and then submitting it, which
runs `sendMessage`. -/

/-- One user-level session operation, carrying the network oracle for the
request it may issue. -/
inductive SessionOp where
  | submitIngredients (net : NetResult)
  | sendFollowUp (text : String) (net : NetResult)
  | reset
deriving DecidableEq, Repr

/-- Apply one session operation to the component state. -/
def applySessionOp (s : ComponentState) : SessionOp → ComponentState
  | .submitIngredients net => submitIngredients s net
  | .sendFollowUp text net => sendMessage { s with inputText := text } net
  | .reset => resetChat s

/-- Apply a sequence of session operations, left to right. -/
def applySessionOps : ComponentState → List SessionOp → ComponentState
  | s, [] => s
  | s, op :: ops => applySessionOps (applySessionOp s op) ops

/-! ### The fine-grained UI machine

`generateRecipe` and `sendMessage` are `async`: they suspend at the awaited
`axios.post`.  To reason about what can happen while a request is
outstanding, the machine below splits each of them into the synchronous
prefix up to the `await` (which records the locals the continuation
captured as a pending request) and a completion event that runs the rest.
Several requests can be outstanding at once, so the pending requests form a
list in issue order. -/

/-- A request in flight, holding the locals its continuation captured:
`generateRecipe` captured `ingredientsList`, `sendMessage` captured
`newHistory`. -/
inductive PendingReq where
  | genWait (ingredientsList : String)
  | followWait (newHistory : List ChatMessage)
deriving DecidableEq, Repr

/-- Component state plus the outstanding requests. -/
structure UIState where
  comp : ComponentState
  pending : List PendingReq
deriving DecidableEq, Repr

/-- The initial machine state: fresh component, nothing outstanding. -/
def initialUIState : UIState :=
  ⟨initialComponentState, []⟩

/-- The synchronous prefix of `generateRecipe` (page.tsx lines 61-98): early
return on an empty row list, else compute `ingredientsList`, set the
in-flight flag and issue the request. -/
def startGenerate (u : UIState) : UIState :=
  if u.comp.ingredients.length == 0 then u
  else
    { comp := { u.comp with isLoading := true },
      pending :=
        u.pending ++ [.genWait (buildPromptIngredientsList u.comp.ingredients)] }

/-- The synchronous prefix of `sendMessage` (page.tsx lines 114-137): early
return on a blank input, else capture `newHistory`, set the in-flight flag
and issue the request. -/
def startSend (u : UIState) : UIState :=
  if jsTrim u.comp.inputText == "" then u
  else
    { comp := { u.comp with isLoading := true },
      pending :=
        u.pending ++
          [.followWait (u.comp.chatHistory ++ [⟨.user, u.comp.inputText, false⟩])] }

/-- Run the continuation of a completed request against the current
component state: the success / failure transition of the corresponding
source function, followed by its `finally` clearing of the flag. -/
def finishReq (c : ComponentState) (p : PendingReq) (net : NetResult) :
    ComponentState :=
  match net with
  | .netError => { c with isLoading := false }
  | .ok d =>
    match extractReplyText d with
    | none => { c with isLoading := false }
    | some text =>
      match p with
      | .genWait ingredientsList =>
        { c with
          chatHistory :=
            [⟨.user, "食材：" ++ ingredientsList, true⟩,
             ⟨.assistant, text, false⟩],
          isLoading := false }
      | .followWait newHistory =>
        { c with
          chatHistory := newHistory ++ [⟨.assistant, text, false⟩],
          inputText := "",
          isLoading := false }

/-- The user- and network-visible events of the rendered page.  Clicks on
the generate and send buttons respect their `disabled` attributes (page.tsx
lines 206 and 255); the Enter keydown on the follow-up input (lines
244-249) calls `sendMessage` directly, with no `disabled` gate. -/
inductive UIEvent where
  | clickGenerate
  | clickSend
  | pressEnter
  | clickReset
  | clickAdd (newId : String)
  | clickRemove (id : String)
  | editRow (id : String) (f : IngField) (v : String)
  | typeInput (text : String)
  | completeReq (i : Nat) (net : NetResult)
deriving DecidableEq, Repr

/-- One step of the UI machine. -/
def uiStep (u : UIState) : UIEvent → UIState
  | .clickGenerate => if submitDisabled u.comp then u else startGenerate u
  | .clickSend => if u.comp.isLoading then u else startSend u
  | .pressEnter => startSend u
  | .clickReset => { u with comp := resetChat u.comp }
  | .clickAdd newId =>
    { u with comp :=
        { u.comp with ingredients := addIngredient u.comp.ingredients newId } }
  | .clickRemove id =>
    { u with comp :=
        { u.comp with ingredients := removeIngredient u.comp.ingredients id } }
  | .editRow id f v =>
    { u with comp :=
        { u.comp with
          ingredients := updateIngredient u.comp.ingredients id f v } }
  | .typeInput text => { u with comp := { u.comp with inputText := text } }
  | .completeReq i net =>
    match u.pending[i]? with
    | none => u
    | some p =>
      { comp := finishReq u.comp p net, pending := u.pending.eraseIdx i }

/-- Run the UI machine over a list of events, left to right. -/
def uiRun : UIState → List UIEvent → UIState
  | u, [] => u
  | u, e :: es => uiRun (uiStep u e) es

/-! ### Auxiliary predicates and fixed test data used by the theorems -/

/-- Does the transcript, when non-empty, start with a user message whose
`isIngredientList` flag is set?  (The spec's transcript-head invariant.) -/
def goodHeadB (l : List ChatMessage) : Bool :=
  match l with
  | [] => true
  | m :: _ => decide (m.role = .user) && m.isIngredientList

/-- Along a sequence of session operations, every follow-up is sent while
the transcript is non-empty. -/
def followUpsOnNonEmpty : ComponentState → List SessionOp → Bool
  | _, [] => true
  | s, .sendFollowUp t net :: ops =>
    !s.chatHistory.isEmpty &&
      followUpsOnNonEmpty (applySessionOp s (.sendFollowUp t net)) ops
  | s, .submitIngredients net :: ops =>
    followUpsOnNonEmpty (applySessionOp s (.submitIngredients net)) ops
  | s, .reset :: ops =>
    followUpsOnNonEmpty (applySessionOp s .reset) ops

/-- The spec's example response body: one candidate whose parts carry the
texts "A" and "B". -/
def exampleResponse : ResponseData :=
  ⟨some [⟨some ⟨some [⟨"A"⟩, ⟨"B"⟩]⟩⟩]⟩

/-- A session that already holds a completed exchange and has the follow-up
question "more?" typed into the input field. -/
def c1State : ComponentState :=
  ⟨initialIngredients,
   [⟨.user, "食材：egg 10g", true⟩, ⟨.assistant, "recipe", false⟩],
   false, "more?"⟩

/-- A fresh session whose first ingredient row was filled in with egg / 10. -/
def c2Start : ComponentState :=
  ⟨[⟨"1", "egg", "10"⟩, ⟨"2", "", ""⟩, ⟨"3", "", ""⟩], [], false, ""⟩

/-- A well-formed session run: submit the ingredients, then ask a follow-up
on the populated transcript; both requests succeed. -/
def c2Ops : List SessionOp :=
  [.submitIngredients (.ok exampleResponse),
   .sendFollowUp "thanks" (.ok exampleResponse)]

/-- A concrete editor run: add a row (with a clock-generated id), delete
row "2", rename row "1" to egg. -/
def c5Ops : List IngOp :=
  [.add "1730000000000", .remove "2", .update "1" .name "egg"]

/-! ### Helper lemmas -/

/-- A list of rows whose trimmed names are all blank survives the named-row
filter as the empty list. -/
theorem filter_named_eq_nil {l : List Ingredient}
    (h : ∀ ing ∈ l, jsTrim ing.name = "") :
    l.filter (fun ing => jsTrim ing.name != "") = [] := by
  rw [List.filter_eq_nil_iff]
  intro a ha
  simp [h a ha]

/-- Unpacking a false generate-button `disabled` condition: the component is
not loading and the row list is non-empty. -/
theorem not_disabled_parts {s : ComponentState}
    (h : submitDisabled s = false) :
    s.isLoading = false ∧ (s.ingredients.length == 0) = false := by
  rw [submitDisabled, Bool.or_eq_false_iff] at h
  refine ⟨h.1, ?_⟩
  have h2 := h.2
  rw [beq_eq_false_iff_ne] at h2 ⊢
  intro hlen
  apply h2
  have hle := List.length_filter_le (fun ing => jsTrim ing.name != "")
    s.ingredients
  omega

/-- A deviating response shape makes the reply-text extraction fail. -/
theorem extractReplyText_eq_none {d : ResponseData}
    (hshape : d.candidates = none ∨ d.candidates = some [] ∨
      ∃ c cs, d.candidates = some (c :: cs) ∧ c.content = none) :
    extractReplyText d = none := by
  rcases hshape with h | h | ⟨c, cs, h1, h2⟩
  · simp [extractReplyText, h]
  · simp [extractReplyText, h]
  · simp [extractReplyText, h1, h2]

/-! ### The claims -/

/-- Claim C10: `resetChat` leaves every ingredient row — each id, name and
amount, and the row order — exactly unchanged; it only empties the
transcript, clears the pending input text and drops the in-flight flag. -/
theorem C10_reset_frame (s : ComponentState) :
    (resetChat s).ingredients = s.ingredients ∧
    (resetChat s).chatHistory = [] ∧
    (resetChat s).inputText = "" ∧
    (resetChat s).isLoading = false :=
  ⟨rfl, rfl, rfl, rfl⟩

/-- Claim C6: `buildPromptIngredientsList` drops exactly the rows whose
trimmed name is empty, renders each surviving row as its name, a space, its
amount and "g", and joins the pieces with the full-width comma; on the
spec's example list it yields "onion 200g、carrot g", and on a list all of
whose rows have blank trimmed names it yields the empty string (and, being
a total function, never raises). -/
theorem C6_buildPromptIngredientsList_correct :
    buildPromptIngredientsList
        [⟨"1", "onion", "200"⟩, ⟨"2", "", "50"⟩, ⟨"3", "carrot", ""⟩] =
      "onion 200g、carrot g" ∧
    (∀ l : List Ingredient, (∀ ing ∈ l, jsTrim ing.name = "") →
      buildPromptIngredientsList l = "") ∧
    (∀ l : List Ingredient, buildPromptIngredientsList l =
      String.intercalate "、"
        ((l.filter (fun ing => jsTrim ing.name != "")).map
          (fun ing => ing.name ++ " " ++ ing.amount ++ "g"))) := by
  refine ⟨by decide, ?_, fun l => rfl⟩
  intro l h
  rw [buildPromptIngredientsList, filter_named_eq_nil h]
  rfl

/-- Witness for C6 at a concrete all-blank list (a whitespace-only name). -/
theorem C6_buildPromptIngredientsList_correct_witness :
    buildPromptIngredientsList [⟨"9", " ", "42"⟩] = "" :=
  C6_buildPromptIngredientsList_correct.2.1 [⟨"9", " ", "42"⟩] (by decide)

/-- Claim C4: when every ingredient row's trimmed name is blank, or a
request is already in flight, submitting the ingredients is a no-op: the
click is swallowed by the generate button's `disabled` attribute, so no
request is issued (the pending-request list is untouched) and the
transcript, input text and in-flight flag are all unchanged; equally the
run-to-completion view `submitIngredients` returns the state unchanged. -/
theorem C4_submit_noop (u : UIState) (net : NetResult)
    (h : u.comp.isLoading = true ∨
      ∀ ing ∈ u.comp.ingredients, jsTrim ing.name = "") :
    uiStep u .clickGenerate = u ∧ submitIngredients u.comp net = u.comp := by
  have hd : submitDisabled u.comp = true := by
    rcases h with h | h
    · simp [submitDisabled, h]
    · simp [submitDisabled, filter_named_eq_nil h]
  constructor
  · simp [uiStep, hd]
  · simp [submitIngredients, hd]

/-- Witness for C4 at the start state (its three rows are all blank). -/
theorem C4_submit_noop_witness :
    uiStep initialUIState .clickGenerate = initialUIState ∧
    submitIngredients initialComponentState .netError =
      initialComponentState :=
  C4_submit_noop initialUIState .netError (Or.inr (by decide))

/-- Claim C3 is false as stated: from the start state, type "hi" into the
follow-up input and press Enter — a request is issued and the in-flight
flag goes up — then press Enter again while that request is still
outstanding: the keydown handler calls `sendMessage` directly with no
in-flight check, so a second request is issued and two requests are
outstanding at once. -/
theorem C3_counterexample :
    (uiRun initialUIState [.typeInput "hi", .pressEnter]).comp.isLoading =
      true ∧
    (uiRun initialUIState [.typeInput "hi", .pressEnter]).pending.length =
      1 ∧
    (uiRun initialUIState
        [.typeInput "hi", .pressEnter, .pressEnter]).pending.length = 2 := by
  decide

/-- Claim C3 (amended): the button entry points do refuse to start a second
request while one is outstanding — clicking generate or send is a complete
no-op whenever the in-flight flag is set, mirroring their `disabled`
attributes — but the Enter-key path into the follow-up submission carries
no such guard, so it can issue a request while one is outstanding. -/
theorem C3_buttons_refuse_while_loading (u : UIState)
    (h : u.comp.isLoading = true) :
    uiStep u .clickGenerate = u ∧ uiStep u .clickSend = u := by
  constructor
  · simp [uiStep, submitDisabled, h]
  · simp [uiStep, h]

/-- Witness for C3's amended theorem at a concrete loading state. -/
theorem C3_buttons_refuse_while_loading_witness :
    uiStep ⟨⟨initialIngredients, [], true, ""⟩, []⟩ .clickGenerate =
      ⟨⟨initialIngredients, [], true, ""⟩, []⟩ ∧
    uiStep ⟨⟨initialIngredients, [], true, ""⟩, []⟩ .clickSend =
      ⟨⟨initialIngredients, [], true, ""⟩, []⟩ :=
  C3_buttons_refuse_while_loading ⟨⟨initialIngredients, [], true, ""⟩, []⟩ rfl

/-- Claim C1 is false as stated: in a session holding a completed exchange
with "more?" typed into the input, a failing follow-up request leaves the
transcript exactly as it was — the appended user message "more?" is NOT
present afterwards (the append only ever lived in the local `newHistory`
that fed the request body). -/
theorem C1_counterexample :
    (sendMessage c1State .netError).chatHistory = c1State.chatHistory ∧
    (⟨.user, "more?", false⟩ : ChatMessage) ∉
      (sendMessage c1State .netError).chatHistory ∧
    (sendMessage c1State .netError).inputText = "more?" ∧
    (sendMessage c1State .netError).isLoading = false := by
  decide

/-- Claim C1 (amended): for every state with a non-blank (post-trim) input,
if the follow-up request fails (network error or malformed body) then the
transcript is left exactly unchanged — in particular the user message was
never committed to it and no assistant message is appended — the input
field is not cleared, and the in-flight flag ends false. -/
theorem C1_followup_failure (s : ComponentState) (net : NetResult)
    (hin : jsTrim s.inputText ≠ "")
    (hfail : net = .netError ∨
      ∃ d, net = .ok d ∧ extractReplyText d = none) :
    (sendMessage s net).chatHistory = s.chatHistory ∧
    (sendMessage s net).inputText = s.inputText ∧
    (sendMessage s net).isLoading = false := by
  rcases hfail with rfl | ⟨d, rfl, hd⟩
  · simp [sendMessage, hin]
  · simp [sendMessage, hin, hd]

/-- Witness for C1's amended theorem: the same session, failing this time
on a response body with no `candidates` field. -/
theorem C1_followup_failure_witness :
    (sendMessage c1State (.ok ⟨none⟩)).chatHistory = c1State.chatHistory ∧
    (sendMessage c1State (.ok ⟨none⟩)).inputText = c1State.inputText ∧
    (sendMessage c1State (.ok ⟨none⟩)).isLoading = false :=
  C1_followup_failure c1State (.ok ⟨none⟩) (by decide)
    (Or.inr ⟨⟨none⟩, rfl, rfl⟩)

/-- Claim C9: when the response body deviates from the expected shape —
`candidates` missing, `candidates` empty, or the first candidate's
`content` absent — the initial submission ends in the caught-failure
branch: the transcript is left unchanged and the in-flight flag is false.
The transition is a total function, so the deviation can never escape as a
crash. -/
theorem C9_malformed_response_caught (s : ComponentState) (d : ResponseData)
    (hrows : s.ingredients ≠ [])
    (hshape : d.candidates = none ∨ d.candidates = some [] ∨
      ∃ c cs, d.candidates = some (c :: cs) ∧ c.content = none) :
    (generateRecipe s (.ok d)).chatHistory = s.chatHistory ∧
    (generateRecipe s (.ok d)).isLoading = false := by
  have hlen : (s.ingredients.length == 0) = false := by
    simp [hrows]
  simp [generateRecipe, hlen, extractReplyText_eq_none hshape]

/-- Witness for C9: the start state submitted against a body with no
`candidates` field. -/
theorem C9_malformed_response_caught_witness :
    (generateRecipe initialComponentState (.ok ⟨none⟩)).chatHistory =
      initialComponentState.chatHistory ∧
    (generateRecipe initialComponentState (.ok ⟨none⟩)).isLoading = false :=
  C9_malformed_response_caught initialComponentState ⟨none⟩ (by decide)
    (Or.inl rfl)

/-- Claim C8: a successful follow-up on a non-blank input appends exactly
two entries — first the user message carrying the literal, untrimmed input
text, then one assistant message with the reply parts joined by newlines —
keeps every prior entry unchanged, and clears the input field; and the
input is cleared ONLY on success: on a network failure or malformed body
it is untouched. -/
theorem C8_followup_success (s : ComponentState) (c : Candidate)
    (cs : List Candidate) (ct : Content) (ps : List Part) (d : ResponseData)
    (hin : jsTrim s.inputText ≠ "")
    (h1 : d.candidates = some (c :: cs)) (h2 : c.content = some ct)
    (h3 : ct.parts = some ps) :
    sendMessage s (.ok d) =
      { s with
        chatHistory := s.chatHistory ++
          [⟨.user, s.inputText, false⟩,
           ⟨.assistant, String.intercalate "\n" (ps.map Part.text), false⟩],
        inputText := "",
        isLoading := false } ∧
    (sendMessage s (.ok d)).chatHistory.length = s.chatHistory.length + 2 ∧
    (sendMessage s .netError).inputText = s.inputText ∧
    (∀ d', extractReplyText d' = none →
      (sendMessage s (.ok d')).inputText = s.inputText) := by
  have hext : extractReplyText d =
      some (String.intercalate "\n" (ps.map Part.text)) := by
    simp [extractReplyText, h1, h2, h3]
  refine ⟨?_, ?_, ?_, ?_⟩
  · simp [sendMessage, hin, hext]
  · simp [sendMessage, hin, hext]
  · simp [sendMessage, hin]
  · intro d' hd'
    simp [sendMessage, hin, hd']

/-- Witness for C8: a fresh session with " hi " (untrimmed) in the input,
answered by the example response; the two appended messages carry the
literal input and "A\nB", and the input is cleared. -/
theorem C8_followup_success_witness :
    sendMessage ⟨initialIngredients, [], false, " hi "⟩
        (.ok exampleResponse) =
      ⟨initialIngredients,
       [⟨.user, " hi ", false⟩, ⟨.assistant, "A" ++ "\n" ++ "B", false⟩],
       false, ""⟩ :=
  ((C8_followup_success ⟨initialIngredients, [], false, " hi "⟩
      ⟨some ⟨some [⟨"A"⟩, ⟨"B"⟩]⟩⟩ [] ⟨some [⟨"A"⟩, ⟨"B"⟩]⟩ [⟨"A"⟩, ⟨"B"⟩]
      exampleResponse (by decide) rfl rfl rfl).1).trans (by decide)

/-- Claim C7: whatever the prior transcript, a successful initial
submission leaves a transcript of length exactly two: entry 0 is the
synthetic user message flagged `isIngredientList` restating the composed
ingredient list, entry 1 is one assistant message whose text is the
response's part texts joined in order with newlines; on the spec's example
parts "A" and "B" that reply text is "A\nB". -/
theorem C7_initial_success (s : ComponentState) (c : Candidate)
    (cs : List Candidate) (ct : Content) (ps : List Part) (d : ResponseData)
    (hen : submitDisabled s = false)
    (h1 : d.candidates = some (c :: cs)) (h2 : c.content = some ct)
    (h3 : ct.parts = some ps) :
    (submitIngredients s (.ok d)).chatHistory =
      [⟨.user, "食材：" ++ buildPromptIngredientsList s.ingredients, true⟩,
       ⟨.assistant, String.intercalate "\n" (ps.map Part.text), false⟩] ∧
    (submitIngredients s (.ok d)).chatHistory.length = 2 ∧
    extractReplyText exampleResponse = some ("A" ++ "\n" ++ "B") := by
  have hlen := (not_disabled_parts hen).2
  have hext : extractReplyText d =
      some (String.intercalate "\n" (ps.map Part.text)) := by
    simp [extractReplyText, h1, h2, h3]
  refine ⟨?_, ?_, by decide⟩ <;>
    simp [submitIngredients, hen, generateRecipe, hlen, hext]

/-- Witness for C7: one named row (egg / 10) submitted against the example
response; the transcript becomes exactly the flagged ingredient message
and the assistant reply "A\nB". -/
theorem C7_initial_success_witness :
    (submitIngredients ⟨[⟨"1", "egg", "10"⟩], [], false, ""⟩
        (.ok exampleResponse)).chatHistory =
      [⟨.user, "食材：egg 10g", true⟩,
       ⟨.assistant, "A" ++ "\n" ++ "B", false⟩] :=
  ((C7_initial_success ⟨[⟨"1", "egg", "10"⟩], [], false, ""⟩
      ⟨some ⟨some [⟨"A"⟩, ⟨"B"⟩]⟩⟩ [] ⟨some [⟨"A"⟩, ⟨"B"⟩]⟩ [⟨"A"⟩, ⟨"B"⟩]
      exampleResponse (by decide) rfl rfl rfl).1).trans (by decide)

/-- One session operation preserves the flagged-user transcript head,
provided a follow-up is only sent while the transcript is non-empty. -/
theorem goodHeadB_step (s : ComponentState) (op : SessionOp)
    (hop : ∀ t net, op = SessionOp.sendFollowUp t net → s.chatHistory ≠ [])
    (h : goodHeadB s.chatHistory = true) :
    goodHeadB (applySessionOp s op).chatHistory = true := by
  cases op with
  | submitIngredients net =>
    rw [applySessionOp, submitIngredients]
    split
    · exact h
    · simp only [generateRecipe]
      split
      · exact h
      · cases net with
        | netError => exact h
        | ok d =>
          cases hed : extractReplyText d with
          | none => simp only [hed]; exact h
          | some recipe => simp [hed, goodHeadB]
  | sendFollowUp t net =>
    have hne := hop t net rfl
    obtain ⟨m, rest, hmr⟩ : ∃ m rest, s.chatHistory = m :: rest := by
      cases hc : s.chatHistory with
      | nil => exact absurd hc hne
      | cons m rest => exact ⟨m, rest, rfl⟩
    rw [applySessionOp]
    simp only [sendMessage]
    split
    · exact h
    · cases net with
      | netError => exact h
      | ok d =>
        cases hed : extractReplyText d with
        | none => simp only [hed]; exact h
        | some reply =>
          rw [hmr] at h
          simp only [goodHeadB, Bool.and_eq_true, decide_eq_true_eq] at h
          simp [hed, hmr, goodHeadB, h.1, h.2]
  | reset => rfl

/-- The flagged-user transcript head is preserved along a whole sequence of
session operations whose follow-ups all happen on a non-empty transcript. -/
theorem goodHeadB_run (ops : List SessionOp) :
    ∀ s : ComponentState, goodHeadB s.chatHistory = true →
      followUpsOnNonEmpty s ops = true →
      goodHeadB (applySessionOps s ops).chatHistory = true := by
  induction ops with
  | nil => exact fun s h _ => h
  | cons op ops ih =>
    intro s h hcond
    cases op with
    | submitIngredients net =>
      rw [followUpsOnNonEmpty] at hcond
      exact ih _ (goodHeadB_step s _ (by intro t net h'; cases h') h) hcond
    | sendFollowUp t net =>
      rw [followUpsOnNonEmpty, Bool.and_eq_true] at hcond
      refine ih _ (goodHeadB_step s _ ?_ h) hcond.2
      intro t' net' _ hnil
      have h1 := hcond.1
      rw [hnil] at h1
      simp at h1
    | reset =>
      rw [followUpsOnNonEmpty] at hcond
      exact ih _ (goodHeadB_step s _ (by intro t net h'; cases h') h) hcond

/-- Claim C2 is false as stated: from the initial empty-transcript state,
the one-operation sequence consisting of a successful follow-up ("hi") is
allowed — `sendMessage` only requires a non-blank input — and it leaves a
non-empty transcript whose FIRST entry is the plain user message "hi" with
`isIngredientList` equal to false, not true. -/
theorem C2_counterexample :
    (applySessionOps initialComponentState
        [.sendFollowUp "hi" (.ok exampleResponse)]).chatHistory.head? =
      some ⟨.user, "hi", false⟩ := by
  decide

/-- Claim C2 (amended): in every state reachable from an empty-transcript
state by session operations among which each follow-up is sent while the
transcript is non-empty, a non-empty transcript starts with a user message
whose `isIngredientList` flag is true.  (The proviso is forced by the
counterexample: a follow-up sent on the empty transcript creates an
unflagged first entry.) -/
theorem C2_transcript_head_invariant (ops : List SessionOp)
    (s : ComponentState) (hempty : s.chatHistory = [])
    (hcond : followUpsOnNonEmpty s ops = true) :
    ∀ m, (applySessionOps s ops).chatHistory.head? = some m →
      m.role = .user ∧ m.isIngredientList = true := by
  intro m hm
  have hg : goodHeadB (applySessionOps s ops).chatHistory = true := by
    refine goodHeadB_run ops s ?_ hcond
    rw [hempty]
    rfl
  cases hl : (applySessionOps s ops).chatHistory with
  | nil => rw [hl] at hm; cases hm
  | cons m0 rest =>
    rw [hl] at hm hg
    have hm0 : m0 = m := by
      simpa using hm
    rw [hm0] at hg
    simp [goodHeadB] at hg
    exact hg

/-- Witness for C2's amended theorem: fill a row with egg / 10, submit, then
follow up on the populated transcript; the transcript head is the flagged
ingredient-list message. -/
theorem C2_transcript_head_invariant_witness :
    (applySessionOps c2Start c2Ops).chatHistory.head? =
      some ⟨.user, "食材：egg 10g", true⟩ ∧
    ((⟨.user, "食材：egg 10g", true⟩ : ChatMessage).role = .user ∧
      (⟨.user, "食材：egg 10g", true⟩ : ChatMessage).isIngredientList =
        true) :=
  ⟨by decide,
   C2_transcript_head_invariant c2Ops c2Start rfl (by decide)
     ⟨.user, "食材：egg 10g", true⟩ (by decide)⟩

/-- `updateIngredient` never changes any id (nor the row order): the id
sequence is untouched. -/
theorem map_id_updateIngredient (l : List Ingredient) (id : String)
    (f : IngField) (v : String) :
    (updateIngredient l id f v).map Ingredient.id = l.map Ingredient.id := by
  rw [updateIngredient, List.map_map]
  apply List.map_congr_left
  intro a _
  cases hid : a.id == id <;> simp only [Function.comp_apply, hid] <;>
    cases f <;> rfl

/-- `removeIngredient` keeps the surviving rows' ids in their original
relative order. -/
theorem map_id_removeIngredient_sublist (l : List Ingredient) (id : String) :
    ((removeIngredient l id).map Ingredient.id).Sublist
      (l.map Ingredient.id) :=
  (List.filter_sublist l).map Ingredient.id

/-- `addIngredient` appends the new id at the end and keeps the rest. -/
theorem map_id_addIngredient (l : List Ingredient) (newId : String) :
    (addIngredient l newId).map Ingredient.id =
      l.map Ingredient.id ++ [newId] := by
  simp [addIngredient]

/-- Along any editor run with fresh ids, the id sequence stays
duplicate-free and is a subsequence of the starting ids followed by the
added ids in order. -/
theorem ingOps_nodup_sublist (ops : List IngOp) :
    ∀ l : List Ingredient, (l.map Ingredient.id).Nodup →
      freshAdds l ops = true →
      ((applyIngOps l ops).map Ingredient.id).Nodup ∧
      ((applyIngOps l ops).map Ingredient.id).Sublist
        (l.map Ingredient.id ++ addedIds ops) := by
  induction ops with
  | nil =>
    intro l h _
    exact ⟨h, by simp [applyIngOps]⟩
  | cons op ops ih =>
    intro l hnd hfresh
    cases op with
    | add newId =>
      rw [freshAdds, Bool.and_eq_true] at hfresh
      have hnotin : newId ∉ l.map Ingredient.id := by
        have h1 := hfresh.1
        simp at h1 ⊢
        intro x hx hxid
        exact h1 x hx hxid
      have hnd2 :
          ((applyIngOp l (.add newId)).map Ingredient.id).Nodup := by
        rw [applyIngOp, map_id_addIngredient]
        simp [List.nodup_append, hnd, hnotin]
      obtain ⟨ha, hb⟩ := ih _ hnd2 hfresh.2
      refine ⟨ha, ?_⟩
      rw [applyIngOps, addedIds]
      rw [applyIngOp, map_id_addIngredient] at hb
      rw [List.append_assoc, List.singleton_append] at hb
      exact hb
    | remove id =>
      rw [freshAdds] at hfresh
      have hnd2 :
          ((applyIngOp l (.remove id)).map Ingredient.id).Nodup := by
        rw [applyIngOp]
        exact hnd.sublist (map_id_removeIngredient_sublist l id)
      obtain ⟨ha, hb⟩ := ih _ hnd2 hfresh
      refine ⟨ha, ?_⟩
      rw [applyIngOps, addedIds]
      refine hb.trans ?_
      rw [applyIngOp]
      exact (map_id_removeIngredient_sublist l id).append
        (List.Sublist.refl _)
    | update id f v =>
      rw [freshAdds] at hfresh
      have hnd2 :
          ((applyIngOp l (.update id f v)).map Ingredient.id).Nodup := by
        rw [applyIngOp, map_id_updateIngredient]
        exact hnd
      obtain ⟨ha, hb⟩ := ih _ hnd2 hfresh
      refine ⟨ha, ?_⟩
      rw [applyIngOps, addedIds]
      rw [applyIngOp, map_id_updateIngredient] at hb
      exact hb

/-- Claim C5: for every sequence of add / remove / update operations from
the initial three-row list (with the clock-generated add ids fresh, as
`Date.now()` provides), the surviving rows keep their relative order —
the resulting id sequence is a subsequence of the initial ids followed by
the added ids — every id is stable for its row's lifetime (updates change
no id, removals keep the others' ids in order), and all ids in the list
are pairwise distinct. -/
theorem C5_editor_invariants (ops : List IngOp)
    (hfresh : freshAdds initialIngredients ops = true) :
    ((applyIngOps initialIngredients ops).map Ingredient.id).Nodup ∧
    ((applyIngOps initialIngredients ops).map Ingredient.id).Sublist
      (initialIngredients.map Ingredient.id ++ addedIds ops) ∧
    (∀ (l : List Ingredient) (id : String) (f : IngField) (v : String),
      (updateIngredient l id f v).map Ingredient.id =
        l.map Ingredient.id) ∧
    (∀ (l : List Ingredient) (id : String),
      ((removeIngredient l id).map Ingredient.id).Sublist
        (l.map Ingredient.id)) := by
  obtain ⟨h1, h2⟩ :=
    ingOps_nodup_sublist ops initialIngredients (by decide) hfresh
  exact ⟨h1, h2, map_id_updateIngredient, map_id_removeIngredient_sublist⟩

/-- Witness for C5 on a concrete run: add a fresh-id row, remove row "2",
rename row "1". -/
theorem C5_editor_invariants_witness :
    ((applyIngOps initialIngredients c5Ops).map Ingredient.id).Nodup ∧
    ((applyIngOps initialIngredients c5Ops).map Ingredient.id).Sublist
      (initialIngredients.map Ingredient.id ++ addedIds c5Ops) :=
  ⟨(C5_editor_invariants c5Ops (by decide)).1,
   (C5_editor_invariants c5Ops (by decide)).2.1⟩

end RecipeCreate
